import Mathlib

/-!
Verification development for the SecurBank banking-portal repository
(`howdy-hello-bot`): a shallow embedding of the Express/MongoDB
authentication service (`server/src/routes/auth.ts`,
`server/src/utils/validators.ts`, `server/src/models/User.ts`) and of the
employee payment portal (`src/pages/EmployeePortal.tsx`, `lib/api.ts`),
together with theorems settling the claims of the specification about them.
-/

namespace SecurBank

/-! ## Model of the bcrypt library

The server calls `bcrypt.hash(password, 12)` and
`bcrypt.compare(password, hash)`.  We model bcrypt by a deterministic
abstraction faithful to its contract: the hash of a password is a string in
the bcrypt output format, beginning with the version-and-cost marker
`$2b$12$` (cost factor 12 as in `auth.ts`), and `compare p h` succeeds
exactly when `h` is the hash of `p`.  (Real bcrypt salts each hash; the
deterministic abstraction keeps every property used below: the round trip
succeeds and the hash is never the plaintext.) -/

def bcryptHash (password : String) : String :=
  "$2b$12$" ++ password

def bcryptCompare (password hash : String) : Bool :=
  hash == bcryptHash password

/-! ## Validators (`server/src/utils/validators.ts`)

Zod schemas become boolean predicates over strings.  The regex character
classes `[a-zA-Z]`, `[A-Z0-9]`, `\d`, `[a-zA-Z0-9_-]` translate to the
corresponding ASCII character tests. -/

/-- The zod `.trim()` transform: strip leading and trailing whitespace. -/
def trimStr (s : String) : String :=
  ⟨((s.toList.dropWhile Char.isWhitespace).reverse.dropWhile Char.isWhitespace).reverse⟩

/-- The zod `.toUpperCase()` transform (ASCII, which is all the `idNumber` pattern
accepts). -/
def upperStr (s : String) : String :=
  ⟨s.toList.map Char.toUpper⟩

def fullNameChar (c : Char) : Bool :=
  c.isAlpha || c.isWhitespace || c == '\'' || c == '-'

/-- `PATTERNS.fullName`: 2 to 100 characters, each a letter, whitespace,
apostrophe or hyphen. -/
def fullNameOk (s : String) : Bool :=
  2 ≤ s.length && s.length ≤ 100 && s.toList.all fullNameChar

/-- `PATTERNS.idNumber = /^[A-Z0-9]{6,20}$/` -/
def idNumberOk (s : String) : Bool :=
  6 ≤ s.length && s.length ≤ 20 && s.toList.all (fun c => c.isUpper || c.isDigit)

/-- `PATTERNS.accountNumber = /^\d{8,20}$/` -/
def accountNumberOk (s : String) : Bool :=
  8 ≤ s.length && s.length ≤ 20 && s.toList.all Char.isDigit

/-- `PATTERNS.username = /^[a-zA-Z0-9_-]{3,30}$/` -/
def usernameOk (s : String) : Bool :=
  3 ≤ s.length && s.length ≤ 30 &&
    s.toList.all (fun c => c.isAlpha || c.isDigit || c == '_' || c == '-')

/-- The password strength policy of `registerSchema`:
`z.string().min(8).max(128).regex(/[A-Z]/).regex(/[a-z]/).regex(/[0-9]/).regex(/[^A-Za-z0-9]/)`. -/
def passwordOk (s : String) : Bool :=
  8 ≤ s.length && s.length ≤ 128 &&
    s.toList.any Char.isUpper &&
    s.toList.any Char.isLower &&
    s.toList.any Char.isDigit &&
    s.toList.any (fun c => !(c.isAlpha || c.isDigit))

/-- The raw body of `POST /api/auth/register`.  `registerSchema` declares
exactly these five fields; there is no `email` field a client could
supply. -/
structure RegisterRequest where
  fullName : String
  idNumber : String
  accountNumber : String
  username : String
  password : String
deriving Repr, DecidableEq

/-- `parsed.data` for a successful `registerSchema.safeParse`: fields after
the zod `.trim()` transform (and `.toUpperCase()` on `idNumber`). -/
structure RegisterData where
  fullName : String
  idNumber : String
  accountNumber : String
  username : String
  password : String
deriving Repr, DecidableEq

/-- `registerSchema.safeParse`: trims (and uppercases `idNumber`), then
checks the pattern of every field; `none` models `success: false`. -/
def registerParse (r : RegisterRequest) : Option RegisterData :=
  let fullName := trimStr r.fullName
  let idNumber := upperStr (trimStr r.idNumber)
  let accountNumber := trimStr r.accountNumber
  let username := trimStr r.username
  if fullNameOk fullName && idNumberOk idNumber && accountNumberOk accountNumber &&
      usernameOk username && passwordOk r.password then
    some ⟨fullName, idNumber, accountNumber, username, r.password⟩
  else
    none

/-! ## Credential store (`server/src/models/User.ts`) -/

/-- A document of the `User` collection.  The same collection backs both
customer and employee login (`auth.ts` has no separate employee model). -/
structure UserRec where
  username : String
  fullName : String
  idNumber : String
  accountNumber : String
  email : String
  passwordHash : String
deriving Repr, DecidableEq

/-- The `User` collection: a list of documents in insertion order;
`findOne` is modelled by `List.find?`. -/
abbrev UserStore := List UserRec

/-! ## `POST /api/auth/register` (`auth.ts` lines 18-55) -/

inductive RegisterOutcome
  | invalidInput
  | conflict
  | created (username fullName accountNumber : String)
deriving Repr, DecidableEq

/-- HTTP status code of each register outcome
(400 `Invalid input`, 409 `User already exists`, 201 `Registered`). -/
def registerStatusCode : RegisterOutcome → Nat
  | .invalidInput => 400
  | .conflict => 409
  | .created _ _ _ => 201

/-- The derived internal e-mail: `` `${username}@securbank.internal` ``
(`auth.ts` line 26). -/
def derivedEmail (username : String) : String :=
  username ++ "@securbank.internal"

/-- The `$or` duplicate probe of `auth.ts` line 28. -/
def collides (d : RegisterData) (u : UserRec) : Bool :=
  u.username == d.username || u.email == derivedEmail d.username ||
    u.accountNumber == d.accountNumber

/-- `POST /register`: validate, reject duplicates with 409, otherwise hash
the password and append the new user document.  Returns the outcome and
the store after the request. -/
def register (store : UserStore) (req : RegisterRequest) :
    RegisterOutcome × UserStore :=
  match registerParse req with
  | none => (.invalidInput, store)
  | some d =>
    if store.any (collides d) then
      (.conflict, store)
    else
      let user : UserRec :=
        ⟨d.username, d.fullName, d.idNumber, d.accountNumber,
          derivedEmail d.username, bcryptHash d.password⟩
      (.created d.username d.fullName d.accountNumber, store ++ [user])

/-! ## `POST /api/auth/login` and `POST /api/auth/employee/login` -/

structure LoginRequest where
  username : String
  accountNumber : String
  password : String
deriving Repr, DecidableEq

/-- `loginSchema.safeParse`: `username` trimmed, min 3 and username
pattern; `accountNumber` trimmed, min 8 and account-number pattern;
`password` min 1. -/
def loginParse (r : LoginRequest) : Option LoginRequest :=
  let username := trimStr r.username
  let accountNumber := trimStr r.accountNumber
  if usernameOk username && accountNumberOk accountNumber && 1 ≤ r.password.length then
    some ⟨username, accountNumber, r.password⟩
  else
    none

inductive LoginOutcome
  | invalidInput
  | unauthorized (msg : String)
  | success (username fullName accountNumber role : String)
deriving Repr, DecidableEq

/-- HTTP status code of each login outcome (400, 401, 200). -/
def loginStatusCode : LoginOutcome → Nat
  | .invalidInput => 400
  | .unauthorized _ => 401
  | .success _ _ _ _ => 200

/-- `POST /login` (`auth.ts` lines 57-80): find the user by username and
account number; a missing user and a hash mismatch both answer
401 `Invalid credentials`; on success the session carries the default
role `customer` (`auth.ts` line 136). -/
def login (store : UserStore) (r : LoginRequest) : LoginOutcome :=
  match loginParse r with
  | none => .invalidInput
  | some d =>
    match store.find? (fun u =>
        u.username == d.username && u.accountNumber == d.accountNumber) with
    | none => .unauthorized "Invalid credentials"
    | some u =>
      if bcryptCompare d.password u.passwordHash then
        .success u.username u.fullName u.accountNumber "customer"
      else
        .unauthorized "Invalid credentials"

/-- Modelled from the spec: `employeeLoginSchema` is imported by
`routes/auth.ts` from `utils/validators` but is not defined in the
sources.  The spec gives `employeeLogin(employeeNumber, password)` the
same contract as login; the model requires both fields nonempty. -/
def employeeLoginParse (employeeNumber password : String) : Bool :=
  0 < employeeNumber.length && 0 < password.length

/-- `POST /employee/login` (`auth.ts` lines 90-129): looks up the SAME
`User` collection, matching `employeeNumber` against `username` or
`idNumber` (`$or`, lines 100-105); on a hash match the session gets
`role = "employee"`. -/
def employeeLogin (store : UserStore) (employeeNumber password : String) :
    LoginOutcome :=
  if employeeLoginParse employeeNumber password then
    match store.find? (fun u =>
        u.username == employeeNumber || u.idNumber == employeeNumber) with
    | none => .unauthorized "Invalid credentials"
    | some u =>
      if bcryptCompare password u.passwordHash then
        .success u.username u.fullName u.accountNumber "employee"
      else
        .unauthorized "Invalid credentials"
  else
    .invalidInput

/-! ## Employee payment portal (`src/pages/EmployeePortal.tsx`)

This frontend works directly against a supabase `payments` table.  A
supabase `update(fields).eq("id", id)` is an atomic write of `fields`
into every row whose `id` matches; it reports an error only on
infrastructure failure, regardless of how many rows matched or what
status they held, so a completed call is modelled as always succeeding. -/

structure Payment where
  id : String
  status : String
  verified_by : Option String := none
  verified_at : Option Nat := none
deriving Repr, DecidableEq

abbrev PaymentTable := List Payment

/-- `verifyPayment` (`EmployeePortal.tsx` lines 73-102): one update setting
`status = "verified"`, `verified_by` and `verified_at`, filtered only by
`id`.  The boolean is the success of the call (the `error` branch fires
only on infrastructure failure). -/
def verifyPayment (employeeId : String) (now : Nat) (paymentId : String)
    (table : PaymentTable) : Bool × PaymentTable :=
  (true,
    table.map fun p =>
      if p.id == paymentId then
        { p with status := "verified", verified_by := some employeeId,
                 verified_at := some now }
      else p)

/-- `submitToSwift` (`EmployeePortal.tsx` lines 104-131): one update setting
`status = "submitted_to_swift"`, filtered only by `id`. -/
def submitToSwift (paymentId : String) (table : PaymentTable) :
    Bool × PaymentTable :=
  (true,
    table.map fun p =>
      if p.id == paymentId then { p with status := "submitted_to_swift" }
      else p)

/-! ## Transactions endpoint `POST /api/transactions/submit-to-swift` -/

/-- A document of the `transactions` collection used by the Express
backend (status vocabulary `pending`, `verified`, `submitted`,
`completed`, `failed`). -/
structure Txn where
  id : String
  status : String
deriving Repr, DecidableEq

/-- Modelled from the spec: `server/src/routes/transactions.ts` is
imported by the server entrypoint but missing from the sources; only the
client wrapper `api.submitToSwift` (`lib/api.ts`) declaring
`POST /api/transactions/submit-to-swift` with body `transactionIds[]` and
response `submittedCount` is present.  Modelled from the words of the spec:
each target transaction must be `verified`; transitions the eligible
subset to `submitted`, reporting a count of successes; transactions not
in `verified` state are skipped, not erred (partial-success semantics). -/
def submitToSwiftRoute (ids : List String) : List Txn → List Txn × Nat
  | [] => ([], 0)
  | t :: rest =>
    let r := submitToSwiftRoute ids rest
    if ids.contains t.id && t.status == "verified" then
      ({ t with status := "submitted" } :: r.1, r.2 + 1)
    else
      (t :: r.1, r.2)

/-! ## Per-identity login lockout -/

/-- Number of consecutive failures that trigger the lockout
(spec: "constant, e.g. 5"; the repository test suite expects the 6th
attempt to answer 429). -/
def lockoutN : Nat := 5

/-- Consecutive-failure counters, keyed by credential identity. -/
abbrev LockoutState := List (String × Nat)

def failCount (st : LockoutState) (idy : String) : Nat :=
  match st.find? (fun e => e.1 == idy) with
  | some e => e.2
  | none => 0

def setCount : LockoutState → String → Nat → LockoutState
  | [], idy, n => [(idy, n)]
  | e :: rest, idy, n =>
    if e.1 == idy then (e.1, n) :: rest else e :: setCount rest idy n

inductive AttemptOutcome
  | rateLimited
  | unauthorized
  | ok
deriving Repr, DecidableEq

/-- Modelled from the spec: `bruteForceProtection` is imported by
`routes/auth.ts` from `../middleware/security`, but the version of that
module in the sources exports only `securityMiddleware` and
`enforceHttps`.  Modelled from the words of the spec: after `lockoutN`
consecutive failed attempts against the same credential identity within
the rolling window, further attempts fail fast with `RateLimited`
regardless of password correctness, and the lockout is keyed
per-identity.  The model covers attempts inside one rolling window
(window expiry would reset a counter); a successful attempt resets the
counter of that identity. -/
def attempt (st : LockoutState) (idy : String) (passwordMatches : Bool) :
    AttemptOutcome × LockoutState :=
  if lockoutN ≤ failCount st idy then
    (.rateLimited, st)
  else if passwordMatches then
    (.ok, setCount st idy 0)
  else
    (.unauthorized, setCount st idy (failCount st idy + 1))

/-- `n` consecutive failed attempts against identity `idy`. -/
def failN (st : LockoutState) (idy : String) : Nat → LockoutState
  | 0 => st
  | n + 1 => (attempt (failN st idy n) idy false).2

/-! ## Helper lemmas -/

theorem bcryptHash_length (p : String) : (bcryptHash p).length = 7 + p.length := by
  have h7 : ("$2b$12$" : String).length = 7 := rfl
  simp [bcryptHash, String.length_append, h7]

theorem bcryptHash_ne (p : String) : bcryptHash p ≠ p := by
  intro h
  have hl := congrArg String.length h
  rw [bcryptHash_length] at hl
  omega

theorem bcryptCompare_hash (p : String) : bcryptCompare p (bcryptHash p) = true := by
  simp [bcryptCompare]

theorem registerParse_password {req : RegisterRequest} {d : RegisterData}
    (h : registerParse req = some d) : d.password = req.password := by
  simp only [registerParse] at h
  split at h
  · cases h; rfl
  · cases h

theorem registerParse_username {req : RegisterRequest} {d : RegisterData}
    (h : registerParse req = some d) : d.username = trimStr req.username := by
  simp only [registerParse] at h
  split at h
  · cases h; rfl
  · cases h

theorem registerParse_ok {req : RegisterRequest} {d : RegisterData}
    (h : registerParse req = some d) :
    usernameOk d.username = true ∧ passwordOk d.password = true := by
  simp only [registerParse] at h
  split at h
  · rename_i hcond
    cases h
    simp only [Bool.and_eq_true] at hcond
    exact ⟨hcond.1.2, hcond.2⟩
  · cases h

theorem register_invalid_eq {store : UserStore} {req : RegisterRequest}
    (hp : registerParse req = none) :
    register store req = (.invalidInput, store) := by
  simp [register, hp]

theorem register_conflict_eq {store : UserStore} {req : RegisterRequest}
    {d : RegisterData} (hp : registerParse req = some d)
    (hc : store.any (collides d) = true) :
    register store req = (.conflict, store) := by
  simp [register, hp, hc]

/-- The document `register` appends on success. -/
def newUserRec (d : RegisterData) : UserRec :=
  ⟨d.username, d.fullName, d.idNumber, d.accountNumber,
    derivedEmail d.username, bcryptHash d.password⟩

theorem register_created_eq {store : UserStore} {req : RegisterRequest}
    {d : RegisterData} (hp : registerParse req = some d)
    (hc : store.any (collides d) = false) :
    register store req =
      (.created d.username d.fullName d.accountNumber, store ++ [newUserRec d]) := by
  simp [register, hp, hc, newUserRec]

theorem register_created_inv {store : UserStore} {req : RegisterRequest}
    {x y z : String} {store' : UserStore}
    (h : register store req = (.created x y z, store')) :
    ∃ d : RegisterData, registerParse req = some d ∧
      store.any (collides d) = false ∧
      store' = store ++ [newUserRec d] := by
  cases hp : registerParse req with
  | none =>
    rw [register_invalid_eq hp] at h
    cases h
  | some d =>
    cases hc : store.any (collides d) with
    | true =>
      rw [register_conflict_eq hp hc] at h
      cases h
    | false =>
      rw [register_created_eq hp hc] at h
      obtain ⟨-, h2⟩ := Prod.mk.injEq .. ▸ h
      exact ⟨d, rfl, hc, h2.symm⟩

/-! ## Claim C6 -/

/-- Claim C6: for every successful registration, the stored credential
(password hash) is never equal to the plaintext password, and verifying
that stored hash against the original plaintext password succeeds
(bcrypt round-trip). -/
theorem register_bcrypt_roundtrip (store : UserStore) (req : RegisterRequest)
    (x y z : String) (store' : UserStore)
    (h : register store req = (.created x y z, store')) :
    ∃ u : UserRec, store' = store ++ [u] ∧
      u.passwordHash ≠ req.password ∧
      bcryptCompare req.password u.passwordHash = true := by
  obtain ⟨d, hp, hc, hs⟩ := register_created_inv h
  have hpw := registerParse_password hp
  refine ⟨newUserRec d, hs, ?_, ?_⟩
  · simpa [newUserRec, hpw] using bcryptHash_ne req.password
  · simp [newUserRec, hpw, bcryptCompare_hash]

theorem register_bcrypt_roundtrip_witness :
    ∃ u : UserRec,
      [(⟨"alice", "Alice Smith", "ID123456", "12345678",
          "alice@securbank.internal", "$2b$12$Passw0rd!"⟩ : UserRec)] = [] ++ [u] ∧
      u.passwordHash ≠ "Passw0rd!" ∧
      bcryptCompare "Passw0rd!" u.passwordHash = true :=
  register_bcrypt_roundtrip []
    ⟨"Alice Smith", "ID123456", "12345678", "alice", "Passw0rd!"⟩
    "alice" "Alice Smith" "12345678" _ (by decide)

/-! ## Claim C7 -/

/-- Claim C7: a login that fails because no matching identity exists and a
login that fails because the password hash does not match return the same
401 status with the identical generic error message, so the response does
not reveal whether the account exists. -/
theorem login_failure_indistinguishable
    (store₁ : UserStore) (r₁ d₁ : LoginRequest)
    (store₂ : UserStore) (r₂ d₂ : LoginRequest) (u : UserRec)
    (hp₁ : loginParse r₁ = some d₁)
    (hfind₁ : store₁.find? (fun v =>
        v.username == d₁.username && v.accountNumber == d₁.accountNumber) = none)
    (hp₂ : loginParse r₂ = some d₂)
    (hfind₂ : store₂.find? (fun v =>
        v.username == d₂.username && v.accountNumber == d₂.accountNumber) = some u)
    (hpw : bcryptCompare d₂.password u.passwordHash = false) :
    login store₁ r₁ = .unauthorized "Invalid credentials" ∧
    login store₂ r₂ = .unauthorized "Invalid credentials" ∧
    login store₁ r₁ = login store₂ r₂ ∧
    loginStatusCode (login store₁ r₁) = 401 := by
  have h₁ : login store₁ r₁ = .unauthorized "Invalid credentials" := by
    simp [login, hp₁, hfind₁]
  have h₂ : login store₂ r₂ = .unauthorized "Invalid credentials" := by
    simp [login, hp₂, hfind₂, hpw]
  exact ⟨h₁, h₂, h₁.trans h₂.symm, by rw [h₁]; rfl⟩

theorem login_failure_indistinguishable_witness :
    login [] ⟨"alice", "12345678", "x"⟩ = .unauthorized "Invalid credentials" ∧
    login [⟨"alice", "Alice Smith", "ID123456", "12345678",
        "alice@securbank.internal", "$2b$12$Passw0rd!"⟩]
      ⟨"alice", "12345678", "Wr0ng!pw"⟩ = .unauthorized "Invalid credentials" ∧
    login [] ⟨"alice", "12345678", "x"⟩ =
      login [⟨"alice", "Alice Smith", "ID123456", "12345678",
        "alice@securbank.internal", "$2b$12$Passw0rd!"⟩]
        ⟨"alice", "12345678", "Wr0ng!pw"⟩ ∧
    loginStatusCode (login [] ⟨"alice", "12345678", "x"⟩) = 401 :=
  login_failure_indistinguishable
    [] ⟨"alice", "12345678", "x"⟩ ⟨"alice", "12345678", "x"⟩
    [⟨"alice", "Alice Smith", "ID123456", "12345678",
      "alice@securbank.internal", "$2b$12$Passw0rd!"⟩]
    ⟨"alice", "12345678", "Wr0ng!pw"⟩ ⟨"alice", "12345678", "Wr0ng!pw"⟩
    ⟨"alice", "Alice Smith", "ID123456", "12345678",
      "alice@securbank.internal", "$2b$12$Passw0rd!"⟩
    (by decide) (by decide) (by decide) (by decide) (by decide)

/-! ## Claim C8 -/

/-- Claim C8: a registration whose password fails the strength policy
(shorter than 8 characters, or missing an uppercase letter, lowercase
letter, digit, or symbol) is rejected with 400 `Invalid input` and the
credential store is unchanged. -/
theorem register_rejects_weak_password (store : UserStore) (req : RegisterRequest)
    (h : req.password.length < 8 ∨
         req.password.toList.any Char.isUpper = false ∨
         req.password.toList.any Char.isLower = false ∨
         req.password.toList.any Char.isDigit = false ∨
         req.password.toList.any (fun c => !(c.isAlpha || c.isDigit)) = false) :
    register store req = (.invalidInput, store) ∧
    registerStatusCode (register store req).1 = 400 := by
  have hpw : passwordOk req.password = false := by
    rw [Bool.eq_false_iff]
    intro hok
    simp only [passwordOk, Bool.and_eq_true, decide_eq_true_eq] at hok
    obtain ⟨⟨⟨⟨⟨h1, h2⟩, h3⟩, h4⟩, h5⟩, h6⟩ := hok
    rcases h with h | h | h | h | h
    · omega
    · rw [h] at h3; cases h3
    · rw [h] at h4; cases h4
    · rw [h] at h5; cases h5
    · rw [h] at h6; cases h6
  have hp : registerParse req = none := by
    simp [registerParse, hpw]
  have := @register_invalid_eq store req hp
  exact ⟨this, by rw [this]; rfl⟩

theorem register_rejects_weak_password_witness :
    ("abc" : String).length < 8 ∧
    register [] ⟨"Test User", "ABC123456", "12345678", "testuser", "abc"⟩ =
      (.invalidInput, []) :=
  ⟨by decide,
    (register_rejects_weak_password []
      ⟨"Test User", "ABC123456", "12345678", "testuser", "abc"⟩
      (Or.inl (by decide))).1⟩

/-! ## Claim C9 -/

/-- Username, email and account number are pairwise distinct across the
store documents (the `unique` indexes of `UserSchema` plus the
`$or` duplicate probe). -/
def UniqueStore (store : UserStore) : Prop :=
  store.Pairwise (fun u v =>
    u.username ≠ v.username ∧ u.email ≠ v.email ∧ u.accountNumber ≠ v.accountNumber)

theorem any_collides_false_elim {store : UserStore} {d : RegisterData}
    (hc : store.any (collides d) = false) :
    ∀ a ∈ store, a.username ≠ d.username ∧ a.email ≠ derivedEmail d.username ∧
      a.accountNumber ≠ d.accountNumber := by
  intro a ha
  have hca : collides d a = false := by
    cases hcc : collides d a with
    | false => rfl
    | true =>
      have : store.any (collides d) = true := List.any_eq_true.mpr ⟨a, ha, hcc⟩
      rw [hc] at this
      cases this
  have := hca
  simp only [collides, Bool.or_eq_false_iff, beq_eq_false_iff_ne, ne_eq] at this
  exact ⟨this.1.1, this.1.2, this.2⟩

/-- Claim C9: username, email and account number are each globally unique
across stored user records: a registration repeating any of them against
an existing record fails with 409 `Conflict` and creates no record, and
every request preserves the uniqueness invariant. -/
theorem register_unique_identity (store : UserStore) (req : RegisterRequest)
    (d : RegisterData) (hp : registerParse req = some d) :
    (store.any (collides d) = true →
      register store req = (.conflict, store) ∧
      registerStatusCode (register store req).1 = 409) ∧
    (UniqueStore store → UniqueStore (register store req).2) := by
  constructor
  · intro hc
    have heq := register_conflict_eq hp hc
    exact ⟨heq, by rw [heq]; rfl⟩
  · intro hu
    cases hc : store.any (collides d) with
    | true =>
      rw [register_conflict_eq hp hc]
      exact hu
    | false =>
      rw [register_created_eq hp hc]
      show UniqueStore (store ++ [newUserRec d])
      unfold UniqueStore at hu ⊢
      rw [List.pairwise_append]
      refine ⟨hu, List.pairwise_singleton _ _, ?_⟩
      intro a ha b hb
      rw [List.mem_singleton] at hb
      subst hb
      exact any_collides_false_elim hc a ha

theorem register_unique_identity_witness :
    register
      [⟨"alice", "Alice Smith", "ID123456", "12345678",
        "alice@securbank.internal", "$2b$12$Passw0rd!"⟩]
      ⟨"Bob Jones", "XY987654", "87654321", "alice", "Passw0rd!"⟩ =
      (.conflict,
        [⟨"alice", "Alice Smith", "ID123456", "12345678",
          "alice@securbank.internal", "$2b$12$Passw0rd!"⟩]) ∧
    UniqueStore (register
      [⟨"alice", "Alice Smith", "ID123456", "12345678",
        "alice@securbank.internal", "$2b$12$Passw0rd!"⟩]
      ⟨"Bob Jones", "XY987654", "87654321", "alice", "Passw0rd!"⟩).2 :=
  have h := register_unique_identity
    [⟨"alice", "Alice Smith", "ID123456", "12345678",
      "alice@securbank.internal", "$2b$12$Passw0rd!"⟩]
    ⟨"Bob Jones", "XY987654", "87654321", "alice", "Passw0rd!"⟩
    ⟨"Bob Jones", "XY987654", "87654321", "alice", "Passw0rd!"⟩
    (by decide)
  ⟨(h.1 (by decide)).1,
    h.2 (by unfold UniqueStore; exact List.pairwise_singleton _ _)⟩

/-! ## Claim C10 -/

/-- Claim C10: the stored email equals the submitted (trimmed) username
with the fixed suffix `@securbank.internal`; `registerSchema` has no email
field, so the email is a function of the username alone, and two derived
emails collide exactly when the usernames collide. -/
theorem register_email_is_derived_from_username (store : UserStore)
    (req : RegisterRequest) (x y z : String) (store' : UserStore)
    (h : register store req = (.created x y z, store')) :
    (∃ u : UserRec, store' = store ++ [u] ∧
      u.email = derivedEmail (trimStr req.username) ∧
      u.email = u.username ++ "@securbank.internal") ∧
    (∀ a b : String, derivedEmail a = derivedEmail b ↔ a = b) := by
  obtain ⟨d, hp, hc, hs⟩ := register_created_inv h
  constructor
  · refine ⟨newUserRec d, hs, ?_, rfl⟩
    simp [newUserRec, registerParse_username hp]
  · intro a b
    constructor
    · intro hab
      have hdata : (derivedEmail a).data = (derivedEmail b).data :=
        congrArg String.data hab
      simp only [derivedEmail, String.data_append] at hdata
      exact String.ext (List.append_cancel_right hdata)
    · intro hab
      rw [hab]

theorem register_email_is_derived_from_username_witness :
    (∃ u : UserRec,
      [(⟨"alice", "Alice Smith", "ID123456", "12345678",
          "alice@securbank.internal", "$2b$12$Passw0rd!"⟩ : UserRec)] = [] ++ [u] ∧
      u.email = derivedEmail (trimStr "alice") ∧
      u.email = u.username ++ "@securbank.internal") ∧
    (∀ a b : String, derivedEmail a = derivedEmail b ↔ a = b) :=
  register_email_is_derived_from_username []
    ⟨"Alice Smith", "ID123456", "12345678", "alice", "Passw0rd!"⟩
    "alice" "Alice Smith" "12345678" _ (by decide)

/-! ## Claim C1 -/

theorem find?_append_left_none {α : Type} {p : α → Bool} {l₁ : List α}
    (l₂ : List α) (h : l₁.find? p = none) :
    (l₁ ++ l₂).find? p = l₂.find? p := by
  induction l₁ with
  | nil => rfl
  | cons a l ih =>
    cases hpa : p a with
    | true => simp [List.find?, hpa] at h
    | false =>
      simp only [List.find?, hpa] at h
      simp only [List.cons_append, List.find?, hpa]
      exact ih h

theorem find?_eq_none_of_all_not {α : Type} {p : α → Bool} {l : List α}
    (h : l.all (fun a => !p a) = true) : l.find? p = none := by
  rw [List.find?_eq_none]
  intro x hx
  have hax := List.all_eq_true.mp h x hx
  simp only [Bool.not_eq_true'] at hax
  simp [hax]

/-- Claim C1 counterexample: registering the ordinary customer `alice`
and then calling the employee login with the customer credentials of alice
establishes a `role=employee` session instead of rejecting with
401 `Invalid credentials`. -/
theorem employeeLogin_accepts_customer_counterexample :
    (register [] ⟨"Alice Smith", "ID123456", "12345678", "alice", "Passw0rd!"⟩).1 =
      .created "alice" "Alice Smith" "12345678" ∧
    employeeLogin
      (register [] ⟨"Alice Smith", "ID123456", "12345678", "alice", "Passw0rd!"⟩).2
      "alice" "Passw0rd!" =
      .success "alice" "Alice Smith" "12345678" "employee" ∧
    employeeLogin
      (register [] ⟨"Alice Smith", "ID123456", "12345678", "alice", "Passw0rd!"⟩).2
      "alice" "Passw0rd!" ≠
      .unauthorized "Invalid credentials" := by
  decide

/-- Claim C1 (amended): the employee login authenticates against the SAME
`User` collection that customer registration fills, matching the supplied
employee number against `username` or `idNumber`; any user whose password
verifies obtains a `role=employee` session.  In particular a freshly
registered customer has credentials that are accepted with employee role rather
than rejected with Unauthorized. -/
theorem employeeLogin_uses_customer_store (store : UserStore)
    (req : RegisterRequest) (d : RegisterData) (x y z : String)
    (store' : UserStore)
    (hp : registerParse req = some d)
    (h : register store req = (.created x y z, store'))
    (hfresh : store.all (fun u =>
      !(u.username == d.username || u.idNumber == d.username)) = true) :
    employeeLogin store' d.username req.password =
      .success d.username d.fullName d.accountNumber "employee" := by
  obtain ⟨d', hp', hc, hs⟩ := register_created_inv h
  rw [hp] at hp'
  obtain rfl : d = d' := Option.some.inj hp'
  subst hs
  have hok := registerParse_ok hp
  have hparse : employeeLoginParse d.username req.password = true := by
    have h1 : 3 ≤ d.username.length := by
      have hu := hok.1
      simp only [usernameOk, Bool.and_eq_true, decide_eq_true_eq] at hu
      exact hu.1.1
    have h2 : 8 ≤ req.password.length := by
      have hw := hok.2
      rw [registerParse_password hp] at hw
      simp only [passwordOk, Bool.and_eq_true, decide_eq_true_eq] at hw
      exact hw.1.1.1.1.1
    simp only [employeeLoginParse, Bool.and_eq_true, decide_eq_true_eq]
    omega
  have hfind : (store ++ [newUserRec d]).find? (fun u =>
      u.username == d.username || u.idNumber == d.username) = some (newUserRec d) := by
    rw [find?_append_left_none _ (find?_eq_none_of_all_not hfresh)]
    simp [List.find?, newUserRec]
  have hpw : bcryptCompare req.password (newUserRec d).passwordHash = true := by
    simp [newUserRec, ← registerParse_password hp, bcryptCompare_hash]
  unfold employeeLogin
  rw [if_pos hparse, hfind]
  dsimp only
  rw [if_pos hpw]
  rfl

theorem employeeLogin_uses_customer_store_witness :
    employeeLogin
      [⟨"alice", "Alice Smith", "ID123456", "12345678",
        "alice@securbank.internal", "$2b$12$Passw0rd!"⟩]
      "alice" "Passw0rd!" =
      .success "alice" "Alice Smith" "12345678" "employee" :=
  employeeLogin_uses_customer_store []
    ⟨"Alice Smith", "ID123456", "12345678", "alice", "Passw0rd!"⟩
    ⟨"Alice Smith", "ID123456", "12345678", "alice", "Passw0rd!"⟩
    "alice" "Alice Smith" "12345678" _
    (by decide) (by decide) (by decide)

/-! ## Claim C2 -/

/-- Claim C2 counterexample: `verifyPayment` on a payment whose status is
`submitted_to_swift` (not `pending`) still reports success and moves the
status back to `verified` — there is no `InvalidState` failure and the
status does not stay unchanged. -/
theorem verifyPayment_no_state_guard_counterexample :
    verifyPayment "emp1" 1000 "p1" [⟨"p1", "submitted_to_swift", none, none⟩] =
      (true, [⟨"p1", "verified", some "emp1", some 1000⟩]) ∧
    (verifyPayment "emp1" 1000 "p1"
      [⟨"p1", "submitted_to_swift", none, none⟩]).2 ≠
      [⟨"p1", "submitted_to_swift", none, none⟩] := by
  decide

/-- Claim C2 (amended): `verifyPayment` performs a single update filtered
only by the payment id: whatever the current status of the target, the call
reports success, sets the status to `verified` and records the verifying
employee and timestamp; rows with other ids are left unchanged.  (Only
the UI restricts the Verify button to `pending` payments; the operation
itself checks no status.) -/
theorem verifyPayment_unconditional (employeeId : String) (now : Nat)
    (paymentId : String) (table : PaymentTable) :
    (verifyPayment employeeId now paymentId table).1 = true ∧
    ∀ p ∈ table,
      (p.id = paymentId →
        ({ p with status := "verified", verified_by := some employeeId,
                  verified_at := some now } : Payment) ∈
          (verifyPayment employeeId now paymentId table).2) ∧
      (p.id ≠ paymentId → p ∈ (verifyPayment employeeId now paymentId table).2) := by
  refine ⟨rfl, ?_⟩
  intro p hp
  constructor
  · intro hid
    refine List.mem_map.mpr ⟨p, hp, ?_⟩
    simp [hid]
  · intro hid
    refine List.mem_map.mpr ⟨p, hp, ?_⟩
    simp [hid]

theorem verifyPayment_unconditional_witness :
    (verifyPayment "emp2" 7 "p1" [⟨"p1", "completed", none, none⟩]).1 = true ∧
    (⟨"p1", "verified", some "emp2", some 7⟩ : Payment) ∈
      (verifyPayment "emp2" 7 "p1" [⟨"p1", "completed", none, none⟩]).2 :=
  ⟨(verifyPayment_unconditional "emp2" 7 "p1"
      [⟨"p1", "completed", none, none⟩]).1,
    ((verifyPayment_unconditional "emp2" 7 "p1"
      [⟨"p1", "completed", none, none⟩]).2
      ⟨"p1", "completed", none, none⟩ (by decide)).1 (by decide)⟩

/-! ## Claim C4 -/

/-- Claim C4 counterexample: two (serialised) `verifyPayment` calls on the
same `pending` payment BOTH report success — there is no
compare-and-swap on status, so neither call is rejected with
`InvalidState`, and the second call silently overwrites the earlier audit
fields; likewise `submitToSwift` on an already-submitted payment reports
success again. -/
theorem no_compare_and_swap_counterexample :
    (verifyPayment "e1" 1 "p1" [⟨"p1", "pending", none, none⟩]).1 = true ∧
    (verifyPayment "e2" 2 "p1"
      (verifyPayment "e1" 1 "p1" [⟨"p1", "pending", none, none⟩]).2).1 = true ∧
    (verifyPayment "e2" 2 "p1"
      (verifyPayment "e1" 1 "p1" [⟨"p1", "pending", none, none⟩]).2).2 =
      [⟨"p1", "verified", some "e2", some 2⟩] ∧
    (submitToSwift "p1" [⟨"p1", "submitted_to_swift", none, none⟩]).1 = true := by
  decide

theorem verifyPayment_overwrites (e : String) (t : Nat) (pid : String)
    (table : PaymentTable) :
    ∀ p ∈ (verifyPayment e t pid table).2, p.id = pid →
      p.verified_by = some e ∧ p.verified_at = some t ∧ p.status = "verified" := by
  intro p hp hid
  simp only [verifyPayment] at hp
  obtain ⟨q, hq, rfl⟩ := List.mem_map.mp hp
  by_cases h : q.id = pid
  · simp [h]
  · rw [if_neg (by simp [h])] at hid ⊢
    exact absurd hid h

/-- Claim C4 (amended): the portal status transitions are single updates
conditioned only on the payment id, never on the expected current status;
two concurrent (serialised) `verifyPayment` calls on the same `pending`
payment both succeed — no `InvalidState` rejection exists — with the
second overwriting the earlier `verified_by`/`verified_at`, and
`submitToSwift` reapplied to an already-submitted payment also reports
success, so nothing prevents a double submission. -/
theorem status_transitions_not_compare_and_swap (e₁ e₂ : String)
    (t₁ t₂ : Nat) (pid : String) (table : PaymentTable) :
    (verifyPayment e₁ t₁ pid table).1 = true ∧
    (verifyPayment e₂ t₂ pid (verifyPayment e₁ t₁ pid table).2).1 = true ∧
    (∀ p ∈ (verifyPayment e₂ t₂ pid (verifyPayment e₁ t₁ pid table).2).2,
      p.id = pid →
        p.verified_by = some e₂ ∧ p.verified_at = some t₂ ∧
        p.status = "verified") ∧
    (submitToSwift pid (submitToSwift pid table).2).1 = true :=
  ⟨rfl, rfl, verifyPayment_overwrites e₂ t₂ pid _, rfl⟩

theorem status_transitions_not_compare_and_swap_witness :
    (verifyPayment "e1" 1 "p9" [⟨"p9", "pending", none, none⟩]).1 = true ∧
    (⟨"p9", "verified", some "e2", some 2⟩ : Payment).verified_by = some "e2" ∧
    (⟨"p9", "verified", some "e2", some 2⟩ : Payment).verified_at = some 2 ∧
    (⟨"p9", "verified", some "e2", some 2⟩ : Payment).status = "verified" :=
  have h := status_transitions_not_compare_and_swap "e1" "e2" 1 2 "p9"
    [⟨"p9", "pending", none, none⟩]
  ⟨h.1, h.2.2.1 ⟨"p9", "verified", some "e2", some 2⟩ (by decide) rfl⟩

/-! ## Claim C3 -/

/-- Claim C3: `submitToSwift` over a list of transaction ids transitions
exactly the targets currently in status `verified` to `submitted`, leaves
every other transaction unchanged without raising an error, and the
reported `submittedCount` equals the number of transactions actually
transitioned (partial-success semantics). -/
theorem submitToSwiftRoute_partial_success (ids : List String)
    (store : List Txn) :
    (submitToSwiftRoute ids store).1 =
      store.map (fun t =>
        if ids.contains t.id && t.status == "verified" then
          { t with status := "submitted" }
        else t) ∧
    (submitToSwiftRoute ids store).2 =
      (store.filter (fun t => ids.contains t.id && t.status == "verified")).length := by
  induction store with
  | nil => exact ⟨rfl, rfl⟩
  | cons t rest ih =>
    cases hc : (ids.contains t.id && t.status == "verified") with
    | true =>
      simp only [submitToSwiftRoute, List.map_cons, List.filter_cons, hc,
        if_true, List.length_cons]
      exact ⟨by rw [ih.1], by rw [ih.2]⟩
    | false =>
      simp only [submitToSwiftRoute, List.map_cons, List.filter_cons, hc,
        if_false, Bool.false_eq_true]
      exact ⟨by rw [ih.1], by rw [ih.2]⟩

/-! ## Claim C5 -/

theorem failCount_cons (x : String × Nat) (l : LockoutState) (idy : String) :
    failCount (x :: l) idy = if x.1 == idy then x.2 else failCount l idy := by
  simp only [failCount, List.find?]
  cases h : x.1 == idy <;> simp [h]

theorem failCount_setCount_self (st : LockoutState) (idy : String) (n : Nat) :
    failCount (setCount st idy n) idy = n := by
  induction st with
  | nil => simp [setCount, failCount_cons]
  | cons e rest ih =>
    simp only [setCount]
    cases h : e.1 == idy with
    | true => simp [failCount_cons, h]
    | false => simp [failCount_cons, h, ih]

theorem failCount_setCount_other (st : LockoutState) (idy idy' : String)
    (n : Nat) (h : idy' ≠ idy) :
    failCount (setCount st idy n) idy' = failCount st idy' := by
  induction st with
  | nil =>
    have : (idy == idy') = false := by
      simp [beq_eq_false_iff_ne]
      exact fun heq => h heq.symm
    simp [setCount, failCount_cons, failCount, this]
  | cons e rest ih =>
    simp only [setCount]
    cases he : e.1 == idy with
    | true =>
      have he' := eq_of_beq he
      have : (e.1 == idy') = false := by
        rw [beq_eq_false_iff_ne, he']
        exact fun heq => h heq.symm
      simp [failCount_cons, this]
    | false => simp [failCount_cons, ih]

theorem failCount_failN_self (st : LockoutState) (idy : String)
    (h0 : failCount st idy = 0) :
    ∀ k, k ≤ lockoutN → failCount (failN st idy k) idy = k := by
  intro k
  induction k with
  | zero => intro _; simpa [failN] using h0
  | succ n ih =>
    intro hk
    have hn := ih (by omega)
    have hlt : ¬ (lockoutN ≤ failCount (failN st idy n) idy) := by
      rw [hn]; omega
    simp only [failN, attempt, if_neg hlt, Bool.false_eq_true, if_false]
    rw [failCount_setCount_self, hn]

theorem failCount_failN_other (st : LockoutState) (idy idy' : String)
    (h : idy' ≠ idy) :
    ∀ k, failCount (failN st idy k) idy' = failCount st idy' := by
  intro k
  induction k with
  | zero => rfl
  | succ n ih =>
    by_cases hle : lockoutN ≤ failCount (failN st idy n) idy
    · simp only [failN, attempt, if_pos hle]
      exact ih
    · simp only [failN, attempt, if_neg hle, Bool.false_eq_true, if_false]
      rw [failCount_setCount_other _ _ _ _ h]
      exact ih

/-- Claim C5: after 5 consecutive failed login attempts against one
credential identity within the lockout window, the next attempt returns
`RateLimited` rather than `Unauthorized` even when the supplied password
is correct; the lockout is keyed per identity, so a different identity
with no failures is still served. -/
theorem lockout_after_n_failures (st : LockoutState) (idy : String)
    (h0 : failCount st idy = 0) :
    (∀ k, k < lockoutN → (attempt (failN st idy k) idy false).1 = .unauthorized) ∧
    (attempt (failN st idy lockoutN) idy true).1 = .rateLimited ∧
    (∀ idy', idy' ≠ idy → failCount st idy' = 0 →
      (attempt (failN st idy lockoutN) idy' true).1 = .ok) := by
  refine ⟨?_, ?_, ?_⟩
  · intro k hk
    have hfc := failCount_failN_self st idy h0 k (by omega)
    have hlt : ¬ (lockoutN ≤ failCount (failN st idy k) idy) := by
      rw [hfc]; omega
    simp [attempt, if_neg hlt]
  · have hfc := failCount_failN_self st idy h0 lockoutN (by omega)
    have hle : lockoutN ≤ failCount (failN st idy lockoutN) idy := by
      rw [hfc]
    simp [attempt, if_pos hle]
  · intro idy' hne h0'
    have hfc : failCount (failN st idy lockoutN) idy' = 0 := by
      rw [failCount_failN_other st idy idy' hne, h0']
    have hlt : ¬ (lockoutN ≤ failCount (failN st idy lockoutN) idy') := by
      rw [hfc]; simp [lockoutN]
    simp [attempt, if_neg hlt]

theorem lockout_after_n_failures_witness :
    (attempt (failN [] "alice" lockoutN) "alice" true).1 = .rateLimited ∧
    (attempt (failN [] "alice" lockoutN) "bob" true).1 = .ok :=
  have h := lockout_after_n_failures [] "alice" rfl
  ⟨h.2.1, h.2.2 "bob" (by decide) rfl⟩

end SecurBank
